import Mathlib

/-!
Verification of `ikfkSwitch.py`: a Maya rigging helper that blends two
control hierarchies (IK and FK) into one target hierarchy through
`pairBlend` nodes, driven by a single scalar weight attribute.

The host application (Maya) owns the scene graph; the script only creates
nodes, connects attributes and walks parent pointers.  We embed that
interface shallowly:

* `MayaState` records the observable effects of the script: which nodes it
  created, which attribute connections it made, which user attributes it
  added, which shapes it hid and which instancing/parenting it performed.
* An attribute is a pair `(node name, attribute name)`.
* `pm.connectAttr` can raise (e.g. the attribute does not exist or is
  already connected); we parameterise the embedding by an environment
  `CanConnect` telling which connections succeed, and model a raised
  exception as `Except.error` carrying the printed message.
* The scene graph used by `get_hierarchy` / `find_similar_hierarchies` is a
  `Scene`: a node list, a child-to-parent map (each Maya DAG node has at
  most one parent), the list of joints returned by `pm.ls(type='joint')`
  and each node's world matrix (a list of rationals; Maya's
  `MMatrix.isEquivalent` compares element-wise within a tolerance).
-/

/-- An attribute endpoint: (node name, attribute name), e.g. `("t1", "translate")`. -/
abbrev Attr := String × String

/-- The keyword arguments given to `pm.addAttr` in `IKFKSwitch.attach`. -/
structure AttrDef where
  longName : String
  attributeType : String
  keyable : Bool
  max : ℚ
  min : ℚ
  defaultValue : ℚ
deriving DecidableEq, Repr

/-- Observable effects of the script on the Maya scene.
`createdNodes` records `(node type, node name)` for each `pm.createNode` /
`pm.spaceLocator` call, `connections` each `pm.connectAttr (src, dst)` call
that succeeded, `addedAttrs` each `pm.addAttr` call, `hiddenShapes` each
`visibility.set(False)`, and `parentings` each `pm.parent(shape, controller,
add=True, shape=True)` as `(shape, controller)`. -/
structure MayaState where
  createdNodes : List (String × String)
  connections : List (Attr × Attr)
  addedAttrs : List (String × AttrDef)
  hiddenShapes : List String
  parentings : List (String × String)
deriving DecidableEq, Repr

/-- The scene before the script runs (for concrete test scenes). -/
def emptyState : MayaState :=
  { createdNodes := [], connections := [], addedAttrs := [],
    hiddenShapes := [], parentings := [] }

/-- Environment: which `pm.connectAttr src dst` calls succeed.  Maya raises
a `RuntimeError` when a connection is impossible; the script never inspects
the reason, so a boolean oracle suffices. -/
abbrev CanConnect := Attr → Attr → Bool

/-- `pm.createNode(nodeType, name=name)` (also used for `pm.spaceLocator`):
always succeeds, records the created node. -/
def createNode (nodeType name : String) (st : MayaState) : MayaState :=
  { st with createdNodes := st.createdNodes ++ [(nodeType, name)] }

/-- `pm.connectAttr(src, dst)`: succeeds and records the connection when the
environment allows it, otherwise raises (modelled as `Except.error` with the
message the script would print). -/
def connectAttr (cc : CanConnect) (src dst : Attr) (st : MayaState) :
    Except String MayaState :=
  if cc src dst then
    Except.ok { st with connections := st.connections ++ [(src, dst)] }
  else
    Except.error ("cannot connect " ++ src.1 ++ "." ++ src.2 ++ " to " ++
      dst.1 ++ "." ++ dst.2)

/-- Python's `zip` over three lists: truncates to the shortest list. -/
def zip3 {α β γ : Type} : List α → List β → List γ → List (α × β × γ)
  | a :: as, b :: bs, c :: cs => (a, b, c) :: zip3 as bs cs
  | _, _, _ => []

/-- The `IKFKSwitch` object's attributes: `self.inputs = [sourceA, sourceB]`
(modelled as a pair), `self.output = target`, `self.blendNodes = []`.  Node
lists hold node names. -/
structure IKFKSwitch where
  inputs : List String × List String
  output : List String
  blendNodes : List String
deriving DecidableEq, Repr

/-- Body of the `for` loop of `IKFKSwitch.make_connections`, iterating over
`zip(self.inputs[0], self.inputs[1], self.output)`.  For each triple it
creates one `pairBlend` node named `<target>_blnd`, makes the six fixed
connections in source order, and appends the blend node to
`self.blendNodes`.  A raised exception aborts the loop immediately, leaving
the partial state (Python performs no rollback). -/
def make_connections_loop (cc : CanConnect) :
    List (String × String × String) → IKFKSwitch → MayaState →
    Except String Unit × IKFKSwitch × MayaState
  | [], sw, st => (Except.ok (), sw, st)
  | (sourceA, sourceB, target) :: rest, sw, st =>
    let pairBlend := target ++ "_blnd"
    let st := createNode "pairBlend" pairBlend st
    match connectAttr cc (sourceA, "translate") (pairBlend, "inTranslate2") st with
    | Except.error e => (Except.error e, sw, st)
    | Except.ok st =>
    match connectAttr cc (sourceB, "translate") (pairBlend, "inTranslate1") st with
    | Except.error e => (Except.error e, sw, st)
    | Except.ok st =>
    match connectAttr cc (sourceA, "rotate") (pairBlend, "inRotate2") st with
    | Except.error e => (Except.error e, sw, st)
    | Except.ok st =>
    match connectAttr cc (sourceB, "rotate") (pairBlend, "inRotate1") st with
    | Except.error e => (Except.error e, sw, st)
    | Except.ok st =>
    match connectAttr cc (pairBlend, "outTranslate") (target, "translate") st with
    | Except.error e => (Except.error e, sw, st)
    | Except.ok st =>
    match connectAttr cc (pairBlend, "outRotate") (target, "rotate") st with
    | Except.error e => (Except.error e, sw, st)
    | Except.ok st =>
      make_connections_loop cc rest
        { sw with blendNodes := sw.blendNodes ++ [pairBlend] } st

/-- `IKFKSwitch.make_connections`. -/
def make_connections (cc : CanConnect) (sw : IKFKSwitch) (st : MayaState) :
    Except String Unit × IKFKSwitch × MayaState :=
  make_connections_loop cc (zip3 sw.inputs.1 sw.inputs.2 sw.output) sw st

/-- `IKFKSwitch.__init__(sourceA, sourceB, target)`: stores the inputs,
initialises `blendNodes` to `[]`, then runs `make_connections` inside
`try`/`except` that prints `e.message` and falls through.  The third
component collects the printed lines. -/
def IKFKSwitch.init (cc : CanConnect) (sourceA sourceB target : List String)
    (st : MayaState) : IKFKSwitch × MayaState × List String :=
  let sw : IKFKSwitch :=
    { inputs := (sourceA, sourceB), output := target, blendNodes := [] }
  match make_connections cc sw st with
  | (Except.ok _, sw, st) => (sw, st, [])
  | (Except.error m, sw, st) => (sw, st, [m])

/-- `pm.addAttr(shape, ...)` in `attach`: records the attribute definition. -/
def addAttr (node : String) (d : AttrDef) (st : MayaState) : MayaState :=
  { st with addedAttrs := st.addedAttrs ++ [(node, d)] }

/-- The `for node in self.blendNodes: pm.connectAttr(shape.blend,
node.weight)` loop of `attach`, generalised over the destination attribute
list.  An exception propagates (`attach` has no `try`). -/
def connect_each (cc : CanConnect) (src : Attr) :
    List Attr → MayaState → Except String MayaState
  | [], st => Except.ok st
  | d :: rest, st =>
    match connectAttr cc src d st with
    | Except.error e => Except.error e
    | Except.ok st => connect_each cc src rest st

/-- `IKFKSwitch.attach(controllers, name='IKFK')`: creates one space locator
`<name>Container` (its shape is `<name>ContainerShape` by Maya's naming
convention), adds a keyable double attribute `blend` with min 0.0, max 1.0
and default 0.0 on the shape, hides the shape, connects `shape.blend` to
`node.weight` for every recorded blend node, then parents an instance of the
shape under each controller. -/
def attach (cc : CanConnect) (sw : IKFKSwitch) (controllers : List String)
    (name : String) (st : MayaState) : Except String MayaState :=
  let locator := name ++ "Container"
  let shape := locator ++ "Shape"
  let st := createNode "spaceLocator" locator st
  let st := addAttr shape
    { longName := "blend", attributeType := "double", keyable := true,
      max := 1, min := 0, defaultValue := 0 } st
  let st := { st with hiddenShapes := st.hiddenShapes ++ [shape] }
  match connect_each cc (shape, "blend")
      (sw.blendNodes.map (fun n => (n, "weight"))) st with
  | Except.error e => Except.error e
  | Except.ok st =>
    Except.ok { st with
      parentings := st.parentings ++ controllers.map (fun c => (shape, c)) }

/-!
## The scene graph

`get_hierarchy`, `find_similar_hierarchies` and `matching_matrices` read the
live Maya scene: parent pointers (`listRelatives(parent=True)`), descendant
sets (`listRelatives(allDescendents=True)`), the joint list
(`pm.ls(type='joint')`) and world matrices (`getAttr('worldMatrix')`).
-/

/-- A snapshot of the Maya scene graph.  `parents` maps a child node to its
parent (a Maya DAG node has at most one parent); `joints` is the list
`pm.ls(type='joint')` returns, in scene order; `worldMatrices` gives each
node's world matrix as a flat list of rationals. -/
structure Scene where
  nodes : List String
  parents : List (String × String)
  joints : List String
  worldMatrices : List (String × List ℚ)

/-- `node.listRelatives(parent=True)`: the node's parent, if any. -/
def listParent (s : Scene) (n : String) : Option String :=
  (s.parents.find? (fun p => p.1 == n)).map (fun p => p.2)

/-- Fuel bound for upward walks: a parent chain in an (acyclic) Maya scene
visits each `parents` entry at most once. -/
def sceneFuel (s : Scene) : Nat := s.parents.length

/-- The chain of proper ancestors of `n`, nearest first, following
`parents` upward; fuel-bounded so that the function is total even on an
ill-formed (cyclic) parent map. -/
def ancestor_chain (s : Scene) : Nat → String → List String
  | 0, _ => []
  | fuel + 1, n =>
    match listParent s n with
    | none => []
    | some p => p :: ancestor_chain s fuel p

/-- `start.listRelatives(allDescendents=True)`: every scene node having
`start` as a proper ancestor.  (Maya computes this downward over children;
with one parent per node the two descriptions agree.) -/
def allDescendents (s : Scene) (start : String) : List String :=
  s.nodes.filter (fun n => (ancestor_chain s (sceneFuel s) n).contains start)

/-- The `while current != start` loop of `get_hierarchy`: walks parent
pointers upward from `current`, prepending each parent to the accumulated
deque (initially `[end]`).  Returns `none` when a node has no parent
(Python's `listRelatives(parent=True)[0]` raises `IndexError`) or when the
fuel runs out (the loop would not terminate). -/
def traverse_up (s : Scene) (start : String) :
    Nat → String → List String → Option (List String)
  | 0, _, _ => none
  | fuel + 1, current, hierarchy =>
    if current = start then some hierarchy
    else
      match listParent s current with
      | none => none
      | some p => traverse_up s start fuel p (p :: hierarchy)

/-- `get_hierarchy(start, end)`: asserts that `end` is among the
descendants of `start` (raising `AssertionError` with a message naming both
nodes before any traversal step), then walks parent pointers upward from
`end` until `start`, returning the chain ordered start → end. -/
def get_hierarchy (s : Scene) (start e : String) : Except String (List String) :=
  if e ∈ allDescendents s start then
    match traverse_up s start (sceneFuel s + 1) e [e] with
    | some l => Except.ok l
    | none => Except.error "IndexError"
  else
    Except.error (e ++ " not in hierarchy of " ++ start)

/-- `l` is a parent chain: every element is the scene-graph parent of the
element that follows it. -/
def isParentChain (s : Scene) : List String → Bool
  | a :: b :: rest => (listParent s b == some a) && isParentChain s (b :: rest)
  | _ => true

/-!
## Matrix matching
-/

/-- Absolute value of a rational (Maya compares with `fabs`). -/
def ratAbs (q : ℚ) : ℚ := if q < 0 then -q else q

/-- `MMatrix.isEquivalent(other, tol)`: the matrices have the same shape and
every pair of corresponding elements differs by at most `tol`. -/
def isEquivalent (m1 m2 : List ℚ) (tol : ℚ) : Bool :=
  m1.length == m2.length &&
    (m1.zip m2).all (fun p => ratAbs (p.1 - p.2) ≤ tol)

/-- `node.getAttr('worldMatrix')`. -/
def getWorldMatrix (s : Scene) (n : String) : List ℚ :=
  ((s.worldMatrices.find? (fun p => p.1 == n)).map (fun p => p.2)).getD []

/-- The `for joint in joints` loop of `matching_matrices`: appends every
joint whose world matrix matches the search node's within tolerance 0.001
and which is not the search node itself. -/
def matching_loop (s : Scene) (search : String) : List String → List String
  | [] => []
  | joint :: rest =>
    if isEquivalent (getWorldMatrix s search) (getWorldMatrix s joint)
        (1 / 1000) && joint != search then
      joint :: matching_loop s search rest
    else
      matching_loop s search rest

/-- `matching_matrices(search)`: scans all scene joints. -/
def matching_matrices (s : Scene) (search : String) : List String :=
  matching_loop s search s.joints

/-- The counter-carrying loop of `pretty_print_hierarchy`: renders node `n`
at depth `count` as `"| " ++ ('-' repeated count) ++ " " ++ n`. -/
def pretty_print_loop : Nat → List String → List String
  | _, [] => []
  | count, n :: rest =>
    ("| " ++ String.mk (List.replicate count '-') ++ " " ++ n) ::
      pretty_print_loop (count + 1) rest

/-- `pretty_print_hierarchy(hierarchy)`: the printed lines. -/
def pretty_print_hierarchy (hierarchy : List String) : List String :=
  pretty_print_loop 0 hierarchy

/-- The `for joint in start_joints` loop of `find_similar_hierarchies`:
for each start-matching joint, intersect its descendant set with the
end-matching joints; when the intersection is non-empty, build the
hierarchy from the joint to one element of it and pretty-print it.
(Python pops an arbitrary element of the intersection set; we model the
choice as the first element in scene order.)  An exception raised by
`get_hierarchy` propagates. -/
def fsh_loop (s : Scene) (end_joints : List String) :
    List String → Except String (List (List String))
  | [] => Except.ok []
  | joint :: rest =>
    let descendents := allDescendents s joint
    let common := descendents.filter (fun n => end_joints.contains n)
    match common with
    | [] => fsh_loop s end_joints rest
    | c :: _ =>
      match get_hierarchy s joint c with
      | Except.error m => Except.error m
      | Except.ok hi =>
        match fsh_loop s end_joints rest with
        | Except.error m => Except.error m
        | Except.ok out => Except.ok (pretty_print_hierarchy hi :: out)

/-- `find_similar_hierarchies(hierarchy)`: the list of printed hierarchy
blocks (or the propagated exception).  The empty hierarchy raises
`IndexError` at `hierarchy[0]`. -/
def find_similar_hierarchies (s : Scene) (hierarchy : List String) :
    Except String (List (List String)) :=
  match hierarchy with
  | [] => Except.error "IndexError"
  | x :: xs =>
    let start_joints := matching_matrices s x
    let end_joints :=
      matching_matrices s ((x :: xs).getLast (List.cons_ne_nil x xs))
    fsh_loop s end_joints start_joints

/-!
## Auxiliary definitions for the statements
-/

instance {ε α : Type} [DecidableEq ε] [DecidableEq α] : DecidableEq (Except ε α) := fun x y =>
  match x, y with
  | Except.ok a, Except.ok b =>
    if h : a = b then Decidable.isTrue (by rw [h])
    else Decidable.isFalse (fun hh => h (Except.ok.inj hh))
  | Except.error a, Except.error b =>
    if h : a = b then Decidable.isTrue (by rw [h])
    else Decidable.isFalse (fun hh => h (Except.error.inj hh))
  | Except.ok _, Except.error _ => Decidable.isFalse (fun hh => Except.noConfusion hh)
  | Except.error _, Except.ok _ => Decidable.isFalse (fun hh => Except.noConfusion hh)

/-- Name of the blend node `make_connections` creates for a triple
`(sourceA, sourceB, target)`: `<target>_blnd`. -/
def blendName (p : String × String × String) : String := p.2.2 ++ "_blnd"

/-- The six connections `make_connections` makes for one triple
`(sourceA, sourceB, target)`, in source order. -/
def sixConnections (p : String × String × String) : List (Attr × Attr) :=
  [((p.1, "translate"), (blendName p, "inTranslate2")),
   ((p.2.1, "translate"), (blendName p, "inTranslate1")),
   ((p.1, "rotate"), (blendName p, "inRotate2")),
   ((p.2.1, "rotate"), (blendName p, "inRotate1")),
   ((blendName p, "outTranslate"), (p.2.2, "translate")),
   ((blendName p, "outRotate"), (p.2.2, "rotate"))]

/-- All connections `make_connections` makes over a list of triples. -/
def allConnections : List (String × String × String) → List (Attr × Attr)
  | [] => []
  | p :: rest => sixConnections p ++ allConnections rest

/-- C5's reading of `matching_matrices`, stated from the claim's words: the
list of all joints whose world matrix is equivalent to the search node's
within tolerance 0.001 — with no exclusion of the search node itself.  To be
compared against `matching_matrices` (the translation of the code). -/
def matching_matrices_claim (s : Scene) (search : String) : List String :=
  s.joints.filter (fun joint =>
    isEquivalent (getWorldMatrix s search) (getWorldMatrix s joint) (1 / 1000))

/-- A connection environment in which every `pm.connectAttr` succeeds. -/
def ccAll : CanConnect := fun _ _ => true

/-- A connection environment in which every `pm.connectAttr` raises. -/
def ccNone : CanConnect := fun _ _ => false

/-- Concrete scene for the hierarchy-walk witnesses: a three-joint chain
`root` → `mid` → `leaf`. -/
def demoChain : Scene :=
  { nodes := ["root", "mid", "leaf"],
    parents := [("mid", "root"), ("leaf", "mid")],
    joints := ["root", "mid", "leaf"],
    worldMatrices := [] }

/-- Concrete scene for the similar-hierarchy witness: two parallel two-joint
chains `A1` → `A2` and `B1` → `B2` whose world matrices all coincide. -/
def demoPair : Scene :=
  { nodes := ["A1", "A2", "B1", "B2"],
    parents := [("A2", "A1"), ("B2", "B1")],
    joints := ["A1", "A2", "B1", "B2"],
    worldMatrices := [("A1", []), ("A2", []), ("B1", []), ("B2", [])] }

/-- Concrete scene for the matching-matrices counterexample: a single joint,
which trivially matches its own world matrix. -/
def demoSelf : Scene :=
  { nodes := ["j1"], parents := [], joints := ["j1"],
    worldMatrices := [("j1", [])] }

/-!
## Shared lemmas about `make_connections` and `attach`
-/

theorem make_connections_loop_ok (cc : CanConnect) (H : ∀ x y, cc x y = true) :
    ∀ (ts : List (String × String × String)) (sw : IKFKSwitch) (st : MayaState),
      make_connections_loop cc ts sw st =
        (Except.ok (),
         { sw with blendNodes := sw.blendNodes ++ ts.map blendName },
         { st with
           createdNodes :=
             st.createdNodes ++ ts.map (fun p => ("pairBlend", blendName p)),
           connections := st.connections ++ allConnections ts }) := by
  intro ts
  induction ts with
  | nil =>
    intro sw st
    simp [make_connections_loop, allConnections]
  | cons p rest ih =>
    intro sw st
    obtain ⟨a, b, t⟩ := p
    simp only [make_connections_loop, createNode, connectAttr, H, if_true]
    rw [ih]
    simp [blendName, allConnections, sixConnections, List.append_assoc]

theorem init_ok (cc : CanConnect) (H : ∀ x y, cc x y = true)
    (sourceA sourceB target : List String) (st : MayaState) :
    IKFKSwitch.init cc sourceA sourceB target st =
      ({ inputs := (sourceA, sourceB), output := target,
         blendNodes := (zip3 sourceA sourceB target).map blendName },
       { st with
         createdNodes := st.createdNodes ++
           (zip3 sourceA sourceB target).map (fun p => ("pairBlend", blendName p)),
         connections :=
           st.connections ++ allConnections (zip3 sourceA sourceB target) },
       []) := by
  unfold IKFKSwitch.init make_connections
  simp only [make_connections_loop_ok cc H]
  simp

theorem connect_each_ok (cc : CanConnect) (H : ∀ x y, cc x y = true) (src : Attr) :
    ∀ (ds : List Attr) (st : MayaState),
      connect_each cc src ds st =
        Except.ok { st with connections := st.connections ++ ds.map (fun d => (src, d)) } := by
  intro ds
  induction ds with
  | nil =>
    intro st
    simp [connect_each]
  | cons d rest ih =>
    intro st
    simp only [connect_each, connectAttr, H, if_true]
    rw [ih]
    simp [List.append_assoc]

theorem zip3_length {α β γ : Type} :
    ∀ (as : List α) (bs : List β) (cs : List γ),
      (zip3 as bs cs).length = min as.length (min bs.length cs.length)
  | [], _, _ => by simp [zip3]
  | _ :: _, [], _ => by simp [zip3]
  | _ :: _, _ :: _, [] => by simp [zip3]
  | _ :: as, _ :: bs, _ :: cs => by
    have ih := zip3_length as bs cs
    simp only [zip3, List.length_cons]
    omega

theorem mem_zip3_take {α β γ : Type} {p : α × β × γ} :
    ∀ {as : List α} {bs : List β} {cs : List γ}, p ∈ zip3 as bs cs →
      p.1 ∈ as.take ((zip3 as bs cs).length) ∧
      p.2.1 ∈ bs.take ((zip3 as bs cs).length) ∧
      p.2.2 ∈ cs.take ((zip3 as bs cs).length)
  | [], _, _, h => by simp [zip3] at h
  | _ :: _, [], _, h => by simp [zip3] at h
  | _ :: _, _ :: _, [], h => by simp [zip3] at h
  | a :: as, b :: bs, c :: cs, h => by
    rcases List.mem_cons.mp h with he | ht
    · subst he
      simp [zip3, List.take_cons]
    · have ih := mem_zip3_take ht
      simp only [zip3, List.length_cons, List.take_cons]
      exact ⟨List.mem_cons_of_mem _ ih.1, List.mem_cons_of_mem _ ih.2.1,
        List.mem_cons_of_mem _ ih.2.2⟩

theorem mem_allConnections {c : Attr × Attr} :
    ∀ {ts : List (String × String × String)},
      c ∈ allConnections ts → ∃ p ∈ ts, c ∈ sixConnections p
  | [], h => by simp [allConnections] at h
  | p :: rest, h => by
    rcases List.mem_append.mp h with h1 | h2
    · exact ⟨p, List.mem_cons_self p rest, h1⟩
    · obtain ⟨q, hq, hc⟩ := mem_allConnections h2
      exact ⟨q, List.mem_cons_of_mem p hq, hc⟩

theorem string_append_right_cancel {a b c : String} (h : a ++ c = b ++ c) : a = b := by
  have hd : (a ++ c).data = (b ++ c).data := by rw [h]
  rw [String.data_append, String.data_append] at hd
  exact String.ext (List.append_cancel_right hd)

/-!
## C1 — blend wiring
-/

/-- C1: for every corresponding triple `(sourceA, sourceB, target)` taken
pairwise-in-order from the two input lists and the output list (their
`zip`), `make_connections` creates exactly one blend node — a `pairBlend`
named `<target>_blnd` — and makes exactly the six fixed connections
`sourceA.translate → inTranslate2`, `sourceB.translate → inTranslate1`,
`sourceA.rotate → inRotate2`, `sourceB.rotate → inRotate1`,
`outTranslate → target.translate` and `outRotate → target.rotate`
(`sixConnections`), with no validation of the nodes and no retry: the
resulting state is exactly the input state extended by those nodes and
connections, one batch per triple. -/
theorem make_connections_spec (cc : CanConnect) (sw : IKFKSwitch) (st : MayaState)
    (H : ∀ x y, cc x y = true) :
    make_connections cc sw st =
      (Except.ok (),
       { sw with blendNodes :=
           sw.blendNodes ++ (zip3 sw.inputs.1 sw.inputs.2 sw.output).map blendName },
       { st with
         createdNodes := st.createdNodes ++
           (zip3 sw.inputs.1 sw.inputs.2 sw.output).map
             (fun p => ("pairBlend", blendName p)),
         connections := st.connections ++
           allConnections (zip3 sw.inputs.1 sw.inputs.2 sw.output) }) :=
  make_connections_loop_ok cc H (zip3 sw.inputs.1 sw.inputs.2 sw.output) sw st

/-- Witness for C1 at a concrete one-triple input. -/
theorem make_connections_spec_witness :
    make_connections ccAll
      { inputs := (["a1"], ["b1"]), output := ["t1"], blendNodes := [] } emptyState =
      (Except.ok (),
       { inputs := (["a1"], ["b1"]), output := ["t1"], blendNodes := ["t1_blnd"] },
       { createdNodes := [("pairBlend", "t1_blnd")],
         connections :=
           [(("a1", "translate"), ("t1_blnd", "inTranslate2")),
            (("b1", "translate"), ("t1_blnd", "inTranslate1")),
            (("a1", "rotate"), ("t1_blnd", "inRotate2")),
            (("b1", "rotate"), ("t1_blnd", "inRotate1")),
            (("t1_blnd", "outTranslate"), ("t1", "translate")),
            (("t1_blnd", "outRotate"), ("t1", "rotate"))],
         addedAttrs := [], hiddenShapes := [], parentings := [] }) := by
  have h := make_connections_spec ccAll
    { inputs := (["a1"], ["b1"]), output := ["t1"], blendNodes := [] } emptyState
    (fun _ _ => rfl)
  rw [h]
  rfl

/-!
## C2 — single scalar weight
-/

/-- C2: `attach` creates one locator, adds one `blend` attribute of type
`double` with minimum 0.0, maximum 1.0 and default 0.0 on that one locator's
shape, and connects that single attribute to the `weight` input of every
blend node recorded in `self.blendNodes`. -/
theorem attach_spec (cc : CanConnect) (sw : IKFKSwitch) (controllers : List String)
    (nm : String) (st : MayaState) (H : ∀ x y, cc x y = true) :
    ∃ st₃, attach cc sw controllers nm st = Except.ok st₃ ∧
      st₃.createdNodes = st.createdNodes ++ [("spaceLocator", nm ++ "Container")] ∧
      st₃.addedAttrs = st.addedAttrs ++
        [(nm ++ "ContainerShape",
          { longName := "blend", attributeType := "double", keyable := true,
            max := 1, min := 0, defaultValue := 0 })] ∧
      ∀ bn ∈ sw.blendNodes,
        ((nm ++ "ContainerShape", "blend"), (bn, "weight")) ∈ st₃.connections := by
  have hsh : nm ++ "Container" ++ "Shape" = nm ++ "ContainerShape" := by
    have hcs : "Container" ++ "Shape" = "ContainerShape" := by decide
    rw [String.append_assoc, hcs]
  unfold attach
  simp only [createNode, addAttr, connect_each_ok cc H, hsh]
  refine ⟨_, rfl, by simp, by simp, ?_⟩
  intro bn hbn
  simp only [List.map_map]
  refine List.mem_append_right _ ?_
  exact List.mem_map_of_mem
    ((fun d => ((nm ++ "ContainerShape", "blend"), d)) ∘ fun n => (n, "weight")) hbn

/-- Witness for C2 at a concrete input with one recorded blend node. -/
theorem attach_spec_witness :
    ∃ st₃, attach ccAll
        { inputs := (["a1"], ["b1"]), output := ["t1"], blendNodes := ["t1_blnd"] }
        ["ctrl"] "IKFK" emptyState = Except.ok st₃ ∧
      st₃.createdNodes = emptyState.createdNodes ++ [("spaceLocator", "IKFK" ++ "Container")] ∧
      st₃.addedAttrs = emptyState.addedAttrs ++
        [("IKFK" ++ "ContainerShape",
          { longName := "blend", attributeType := "double", keyable := true,
            max := 1, min := 0, defaultValue := 0 })] ∧
      ∀ bn ∈ ["t1_blnd"],
        (("IKFK" ++ "ContainerShape", "blend"), (bn, "weight")) ∈ st₃.connections :=
  attach_spec ccAll
    { inputs := (["a1"], ["b1"]), output := ["t1"], blendNodes := ["t1_blnd"] }
    ["ctrl"] "IKFK" emptyState (fun _ _ => rfl)

/-!
## C7 — exception handling in the constructor
-/

/-- C7: whenever `make_connections` raises during construction, `__init__`
catches the exception, prints its message, and completes normally, returning
the object and scene state exactly as the failing `make_connections` left
them — no recovery or rollback, so blend nodes appended to
`self.blendNodes` before the failing step remain recorded. -/
theorem init_catches_and_continues (cc : CanConnect)
    (sourceA sourceB target : List String) (st : MayaState)
    (m : String) (sw' : IKFKSwitch) (st' : MayaState)
    (h : make_connections cc
        { inputs := (sourceA, sourceB), output := target, blendNodes := [] } st =
        (Except.error m, sw', st')) :
    IKFKSwitch.init cc sourceA sourceB target st = (sw', st', [m]) := by
  unfold IKFKSwitch.init
  simp only [h]

/-- Witness for C7: an environment in which the very first `connectAttr`
raises; the constructor returns normally with the created `pairBlend` node
recorded and the message printed. -/
theorem init_catches_witness :
    IKFKSwitch.init ccNone ["a1"] ["b1"] ["t1"] emptyState =
      ({ inputs := (["a1"], ["b1"]), output := ["t1"], blendNodes := [] },
       { createdNodes := [("pairBlend", "t1_blnd")], connections := [],
         addedAttrs := [], hiddenShapes := [], parentings := [] },
       ["cannot connect a1.translate to t1_blnd.inTranslate2"]) :=
  init_catches_and_continues ccNone ["a1"] ["b1"] ["t1"] emptyState
    "cannot connect a1.translate to t1_blnd.inTranslate2"
    { inputs := (["a1"], ["b1"]), output := ["t1"], blendNodes := [] }
    { createdNodes := [("pairBlend", "t1_blnd")], connections := [],
      addedAttrs := [], hiddenShapes := [], parentings := [] }
    rfl

/-!
## C8 — retained data structures
-/

/-- Counterexample to C8 as stated ("no list built by one operation is
retained and read by a later operation"): after construction the
`blendNodes` list built by `make_connections` is retained on the object,
and `attach` — a later operation — reads it: erasing the retained list
changes `attach`'s result. -/
theorem retained_blendNodes_counterexample :
    (IKFKSwitch.init ccAll ["a1"] ["b1"] ["t1"] emptyState).1.blendNodes =
      ["t1_blnd"] ∧
    attach ccAll (IKFKSwitch.init ccAll ["a1"] ["b1"] ["t1"] emptyState).1
        [] "IKFK" emptyState ≠
      attach ccAll
        { (IKFKSwitch.init ccAll ["a1"] ["b1"] ["t1"] emptyState).1 with
          blendNodes := [] } [] "IKFK" emptyState := by
  constructor
  · rfl
  · decide

/-- C8 amended: the script retains exactly one list across operations — the
`blendNodes` list the constructor's `make_connections` builds on the object —
and the later `attach` operation reads it: `attach`'s weight connections are
exactly one per retained blend node.  All other lists are temporaries of a
single operation. -/
theorem blendNodes_retained_and_read (cc : CanConnect)
    (sourceA sourceB target : List String) (st : MayaState)
    (H : ∀ x y, cc x y = true) :
    (IKFKSwitch.init cc sourceA sourceB target st).1.blendNodes =
      (zip3 sourceA sourceB target).map blendName ∧
    ∀ (controllers : List String) (nm : String) (st₂ : MayaState),
      ∃ st₃,
        attach cc (IKFKSwitch.init cc sourceA sourceB target st).1
            controllers nm st₂ = Except.ok st₃ ∧
        st₃.connections = st₂.connections ++
          (IKFKSwitch.init cc sourceA sourceB target st).1.blendNodes.map
            (fun bn => ((nm ++ "ContainerShape", "blend"), (bn, "weight"))) := by
  rw [init_ok cc H]
  refine ⟨rfl, ?_⟩
  intro controllers nm st₂
  have hsh : nm ++ "Container" ++ "Shape" = nm ++ "ContainerShape" := by
    have hcs : "Container" ++ "Shape" = "ContainerShape" := by decide
    rw [String.append_assoc, hcs]
  unfold attach
  simp only [createNode, addAttr, connect_each_ok cc H, hsh]
  refine ⟨_, rfl, ?_⟩
  simp [List.map_map, Function.comp]

/-- Witness for C8's amended statement at a concrete input. -/
theorem blendNodes_retained_and_read_witness :
    (IKFKSwitch.init ccAll ["a1"] ["b1"] ["t1"] emptyState).1.blendNodes =
      (zip3 ["a1"] ["b1"] ["t1"]).map blendName ∧
    ∀ (controllers : List String) (nm : String) (st₂ : MayaState),
      ∃ st₃,
        attach ccAll (IKFKSwitch.init ccAll ["a1"] ["b1"] ["t1"] emptyState).1
            controllers nm st₂ = Except.ok st₃ ∧
        st₃.connections = st₂.connections ++
          (IKFKSwitch.init ccAll ["a1"] ["b1"] ["t1"] emptyState).1.blendNodes.map
            (fun bn => ((nm ++ "ContainerShape", "blend"), (bn, "weight"))) :=
  blendNodes_retained_and_read ccAll ["a1"] ["b1"] ["t1"] emptyState (fun _ _ => rfl)

/-!
## C10 — zip truncation and its frame
-/

/-- Counterexample to C10 as stated: with `sourceA = ["a1", "t1"]`,
`sourceB = ["b1"]`, `target = ["t1"]`, the node `t1` lies beyond
`min(len(sourceA), len(sourceB), len(target)) = 1` in `sourceA`, yet it
does receive a blend node (`t1_blnd`) and its `translate` attribute is
connected — because the same node also occurs within the first
`min`-length entries of `target`. -/
theorem make_connections_truncates_counterexample :
    ¬ (∀ n : String,
        n ∈ List.drop (min (List.length ["a1", "t1"])
              (min (List.length ["b1"]) (List.length ["t1"]))) ["a1", "t1"] →
        ("pairBlend", n ++ "_blnd") ∉
            (IKFKSwitch.init ccAll ["a1", "t1"] ["b1"] ["t1"]
              emptyState).2.1.createdNodes ∧
        ∀ conn ∈ (IKFKSwitch.init ccAll ["a1", "t1"] ["b1"] ["t1"]
            emptyState).2.1.connections,
          conn.2 ≠ (n, "translate")) := by
  intro h
  have h2 := h "t1" (by decide)
  exact h2.1 (by decide)

/-- C10 amended: when the three lists differ in length, `make_connections`
silently truncates to the shortest: exactly
`min(len(sourceA), len(sourceB), len(target))` blend nodes are created, and
every node beyond that length in any of the three lists that does not also
occur among the first `min`-length entries of the lists receives no blend
node and has none of its `translate` or `rotate` attributes connected. -/
theorem make_connections_truncates (cc : CanConnect)
    (sourceA sourceB target : List String) (n : String)
    (H : ∀ x y, cc x y = true)
    (_hbeyond :
      n ∈ sourceA.drop (min sourceA.length (min sourceB.length target.length)) ∨
      n ∈ sourceB.drop (min sourceA.length (min sourceB.length target.length)) ∨
      n ∈ target.drop (min sourceA.length (min sourceB.length target.length)))
    (h1 : n ∉ sourceA.take (min sourceA.length (min sourceB.length target.length)))
    (h2 : n ∉ sourceB.take (min sourceA.length (min sourceB.length target.length)))
    (h3 : n ∉ target.take (min sourceA.length (min sourceB.length target.length))) :
    (IKFKSwitch.init cc sourceA sourceB target emptyState).2.1.createdNodes.length =
      min sourceA.length (min sourceB.length target.length) ∧
    ("pairBlend", n ++ "_blnd") ∉
      (IKFKSwitch.init cc sourceA sourceB target emptyState).2.1.createdNodes ∧
    ∀ conn ∈ (IKFKSwitch.init cc sourceA sourceB target emptyState).2.1.connections,
      conn.1 ≠ (n, "translate") ∧ conn.1 ≠ (n, "rotate") ∧
      conn.2 ≠ (n, "translate") ∧ conn.2 ≠ (n, "rotate") := by
  rw [init_ok cc H]
  refine ⟨?_, ?_, ?_⟩
  · simp [emptyState, zip3_length]
  · intro hmem
    simp only [emptyState, List.nil_append, List.mem_map] at hmem
    obtain ⟨p, hp, heq⟩ := hmem
    have hname : blendName p = n ++ "_blnd" := congrArg Prod.snd heq
    have hpn : p.2.2 = n := string_append_right_cancel hname
    have htake := (mem_zip3_take hp).2.2
    rw [zip3_length, hpn] at htake
    exact h3 htake
  · intro conn hconn
    simp only [emptyState, List.nil_append] at hconn
    obtain ⟨p, hp, hsix⟩ := mem_allConnections hconn
    have htake := mem_zip3_take hp
    rw [zip3_length] at htake
    have np1 : p.1 ≠ n := fun he => h1 (he ▸ htake.1)
    have np2 : p.2.1 ≠ n := fun he => h2 (he ▸ htake.2.1)
    have np3 : p.2.2 ≠ n := fun he => h3 (he ▸ htake.2.2)
    have hattr : ∀ a1 a2 : String, a2 ≠ "translate" → a2 ≠ "rotate" →
        (a1, a2) ≠ (n, "translate") ∧ (a1, a2) ≠ (n, "rotate") :=
      fun a1 a2 ht hr =>
        ⟨fun he => ht (congrArg Prod.snd he), fun he => hr (congrArg Prod.snd he)⟩
    have hnode : ∀ a1 a2 : String, a1 ≠ n →
        (a1, a2) ≠ (n, "translate") ∧ (a1, a2) ≠ (n, "rotate") :=
      fun a1 a2 hne =>
        ⟨fun he => hne (congrArg Prod.fst he), fun he => hne (congrArg Prod.fst he)⟩
    rcases (by simpa [sixConnections] using hsix :
        conn = ((p.1, "translate"), (blendName p, "inTranslate2")) ∨
        conn = ((p.2.1, "translate"), (blendName p, "inTranslate1")) ∨
        conn = ((p.1, "rotate"), (blendName p, "inRotate2")) ∨
        conn = ((p.2.1, "rotate"), (blendName p, "inRotate1")) ∨
        conn = ((blendName p, "outTranslate"), (p.2.2, "translate")) ∨
        conn = ((blendName p, "outRotate"), (p.2.2, "rotate"))) with
      rfl | rfl | rfl | rfl | rfl | rfl
    · exact ⟨(hnode _ _ np1).1, (hnode _ _ np1).2,
        (hattr _ _ (by decide) (by decide)).1, (hattr _ _ (by decide) (by decide)).2⟩
    · exact ⟨(hnode _ _ np2).1, (hnode _ _ np2).2,
        (hattr _ _ (by decide) (by decide)).1, (hattr _ _ (by decide) (by decide)).2⟩
    · exact ⟨(hnode _ _ np1).1, (hnode _ _ np1).2,
        (hattr _ _ (by decide) (by decide)).1, (hattr _ _ (by decide) (by decide)).2⟩
    · exact ⟨(hnode _ _ np2).1, (hnode _ _ np2).2,
        (hattr _ _ (by decide) (by decide)).1, (hattr _ _ (by decide) (by decide)).2⟩
    · exact ⟨(hattr _ _ (by decide) (by decide)).1, (hattr _ _ (by decide) (by decide)).2,
        (hnode _ _ np3).1, (hnode _ _ np3).2⟩
    · exact ⟨(hattr _ _ (by decide) (by decide)).1, (hattr _ _ (by decide) (by decide)).2,
        (hnode _ _ np3).1, (hnode _ _ np3).2⟩

/-- Witness for C10's amended statement: `sourceA` has an extra trailing
node `x2` that occurs nowhere in the truncated prefixes. -/
theorem make_connections_truncates_witness :
    (IKFKSwitch.init ccAll ["a1", "x2"] ["b1"] ["t1"]
        emptyState).2.1.createdNodes.length =
      min (List.length ["a1", "x2"])
        (min (List.length ["b1"]) (List.length ["t1"])) ∧
    ("pairBlend", "x2" ++ "_blnd") ∉
      (IKFKSwitch.init ccAll ["a1", "x2"] ["b1"] ["t1"]
        emptyState).2.1.createdNodes ∧
    ∀ conn ∈ (IKFKSwitch.init ccAll ["a1", "x2"] ["b1"] ["t1"]
        emptyState).2.1.connections,
      conn.1 ≠ ("x2", "translate") ∧ conn.1 ≠ ("x2", "rotate") ∧
      conn.2 ≠ ("x2", "translate") ∧ conn.2 ≠ ("x2", "rotate") :=
  make_connections_truncates ccAll ["a1", "x2"] ["b1"] ["t1"] "x2"
    (fun _ _ => rfl) (Or.inl (by decide)) (by decide) (by decide) (by decide)

/-!
## Shared lemmas about the hierarchy walk
-/

theorem traverse_up_some (s : Scene) (start : String) :
    ∀ (fuel : Nat) (cur : String) (acc : List String),
      start ∈ ancestor_chain s fuel cur →
      ∃ l, traverse_up s start (fuel + 1) cur acc = some l := by
  intro fuel
  induction fuel with
  | zero =>
    intro cur acc h
    simp [ancestor_chain] at h
  | succ fuel ih =>
    intro cur acc h
    by_cases hc : cur = start
    · exact ⟨acc, by simp [traverse_up, hc]⟩
    · unfold ancestor_chain at h
      cases hp : listParent s cur with
      | none => rw [hp] at h; simp at h
      | some p =>
        rw [hp] at h
        rcases List.mem_cons.mp h with he | ht
        · refine ⟨p :: acc, ?_⟩
          unfold traverse_up
          rw [if_neg hc, hp]
          unfold traverse_up
          rw [if_pos he.symm]
        · obtain ⟨l, hl⟩ := ih p (p :: acc) ht
          refine ⟨l, ?_⟩
          unfold traverse_up
          rw [if_neg hc, hp]
          exact hl

theorem traverse_up_spec (s : Scene) (start e : String) :
    ∀ (fuel : Nat) (cur : String) (acc l : List String),
      traverse_up s start fuel cur acc = some l →
      acc.head? = some cur → isParentChain s acc = true → acc.getLast? = some e →
      l.head? = some start ∧ isParentChain s l = true ∧ l.getLast? = some e := by
  intro fuel
  induction fuel with
  | zero =>
    intro cur acc l h
    simp [traverse_up] at h
  | succ fuel ih =>
    intro cur acc l h hhead hchain hlast
    by_cases hc : cur = start
    · unfold traverse_up at h
      rw [if_pos hc] at h
      cases h
      exact ⟨hc ▸ hhead, hchain, hlast⟩
    · unfold traverse_up at h
      rw [if_neg hc] at h
      cases hp : listParent s cur with
      | none => rw [hp] at h; cases h
      | some p =>
        rw [hp] at h
        cases acc with
        | nil => cases hhead
        | cons a rest =>
          have ha : a = cur := by
            simpa using hhead
          subst ha
          refine ih p (p :: a :: rest) l h rfl ?_ ?_
          · unfold isParentChain
            rw [hp]
            simp [hchain]
          · rw [List.getLast?_cons_cons]
            exact hlast

theorem get_hierarchy_ok_of_mem (s : Scene) (start e : String)
    (h : e ∈ allDescendents s start) :
    ∃ l, get_hierarchy s start e = Except.ok l ∧
      traverse_up s start (sceneFuel s + 1) e [e] = some l := by
  have hchain : start ∈ ancestor_chain s (sceneFuel s) e :=
    (by simpa [allDescendents] using h :
      e ∈ s.nodes ∧ start ∈ ancestor_chain s (sceneFuel s) e).2
  obtain ⟨l, hl⟩ := traverse_up_some s start (sceneFuel s) e [e] hchain
  refine ⟨l, ?_, hl⟩
  unfold get_hierarchy
  rw [if_pos h, hl]

/-!
## C3 — hierarchy traversal
-/

/-- C3: for every pair `(start, end)` with `end` a descendant of `start`,
`get_hierarchy` terminates without raising and returns an ordered chain
whose first element is `start` and last element is `end`, in which every
element is the scene-graph parent of the element that follows it — the
result of the single linear upward walk from `end` to `start`. -/
theorem get_hierarchy_spec (s : Scene) (start e : String)
    (h : e ∈ allDescendents s start) :
    ∃ l, get_hierarchy s start e = Except.ok l ∧ l.head? = some start ∧
      l.getLast? = some e ∧ isParentChain s l = true := by
  obtain ⟨l, hok, hwalk⟩ := get_hierarchy_ok_of_mem s start e h
  obtain ⟨hh, hc, hl⟩ :=
    traverse_up_spec s start e (sceneFuel s + 1) e [e] l hwalk rfl rfl rfl
  exact ⟨l, hok, hh, hl, hc⟩

/-- Witness for C3 on the chain `root` → `mid` → `leaf`. -/
theorem get_hierarchy_spec_witness :
    ∃ l, get_hierarchy demoChain "root" "leaf" = Except.ok l ∧
      l.head? = some "root" ∧ l.getLast? = some "leaf" ∧
      isParentChain demoChain l = true :=
  get_hierarchy_spec demoChain "root" "leaf" (by decide)

/-!
## C4 — the membership assertion
-/

/-- C4: `get_hierarchy` raises the assertion error — whose message names the
two nodes — exactly when `end` is not among the descendants of `start`; the
membership check is the function's first step (the guard of
`get_hierarchy`), so the failing case produces the error with no upward
walk performed. -/
theorem get_hierarchy_assert_iff (s : Scene) (start e : String) :
    get_hierarchy s start e =
        Except.error (e ++ " not in hierarchy of " ++ start) ↔
      e ∉ allDescendents s start := by
  constructor
  · intro herr hmem
    obtain ⟨l, hok, _⟩ := get_hierarchy_ok_of_mem s start e hmem
    rw [hok] at herr
    cases herr
  · intro hmem
    unfold get_hierarchy
    rw [if_neg hmem]

/-!
## Shared lemmas about matrix matching
-/

theorem matching_loop_eq_filter (s : Scene) (search : String) :
    ∀ js : List String,
      matching_loop s search js =
        js.filter (fun joint =>
          isEquivalent (getWorldMatrix s search) (getWorldMatrix s joint)
            (1 / 1000) && joint != search) := by
  intro js
  induction js with
  | nil => rfl
  | cons jt rest ih =>
    rw [List.filter_cons]
    unfold matching_loop
    by_cases hc :
        (isEquivalent (getWorldMatrix s search) (getWorldMatrix s jt)
          (1 / 1000) && jt != search) = true
    · rw [if_pos hc, if_pos hc, ih]
    · rw [if_neg hc, if_neg hc, ih]

/-!
## C5 — what `matching_matrices` returns
-/

/-- Counterexample to C5 as stated: on a scene whose joint list contains the
search node itself, the returned list is not "the list of all joints whose
world matrix is equivalent to the search node's within the tolerance"
(`matching_matrices_claim`): the search node trivially matches itself but is
excluded. -/
theorem matching_matrices_counterexample :
    matching_matrices demoSelf "j1" ≠ matching_matrices_claim demoSelf "j1" ∧
    "j1" ∈ demoSelf.joints ∧
    isEquivalent (getWorldMatrix demoSelf "j1") (getWorldMatrix demoSelf "j1")
      (1 / 1000) = true := by
  refine ⟨?_, by decide, by decide⟩
  decide

/-- C5 amended: `matching_matrices` compares the world transform of every
scene joint against the search node's within the fixed tolerance 0.001 and
returns the list of all joints *other than the search node itself* whose
world matrix is equivalent within that tolerance — a brute-force scan with
no indexing or caching, characterised by this membership property. -/
theorem mem_matching_matrices (s : Scene) (search j : String) :
    j ∈ matching_matrices s search ↔
      j ∈ s.joints ∧
      isEquivalent (getWorldMatrix s search) (getWorldMatrix s j)
        (1 / 1000) = true ∧
      j ≠ search := by
  unfold matching_matrices
  rw [matching_loop_eq_filter]
  rw [List.mem_filter]
  simp [Bool.and_eq_true, and_assoc]

/-!
## C9 — the search node is never returned
-/

/-- C9: `matching_matrices` never includes the search node itself in its
result, even though the search node's world matrix is trivially equivalent
to itself within the tolerance. -/
theorem search_not_in_matching_matrices (s : Scene) (search : String) :
    (matching_matrices s search).contains search = false := by
  rw [Bool.eq_false_iff]
  intro hc
  have hmem : search ∈ matching_matrices s search := by simpa using hc
  unfold matching_matrices at hmem
  rw [matching_loop_eq_filter] at hmem
  have := (List.mem_filter.mp hmem).2
  simp [Bool.and_eq_true] at this

/-!
## Shared lemma about `find_similar_hierarchies`
-/

theorem fsh_loop_ok (s : Scene) (end_joints : List String) :
    ∀ js : List String,
      fsh_loop s end_joints js = Except.ok (js.filterMap (fun j =>
        match (allDescendents s j).filter (fun n => end_joints.contains n) with
        | [] => none
        | c :: _ =>
          some (pretty_print_hierarchy ((get_hierarchy s j c).toOption.getD [])))) := by
  intro js
  induction js with
  | nil => rfl
  | cons j rest ih =>
    rw [List.filterMap_cons]
    unfold fsh_loop
    cases hcom : (allDescendents s j).filter (fun n => end_joints.contains n) with
    | nil =>
      simp only [hcom]
      exact ih
    | cons c cs =>
      have hcmem : c ∈ allDescendents s j :=
        List.mem_of_mem_filter (hcom ▸ List.mem_cons_self c cs)
      obtain ⟨l, hok, _⟩ := get_hierarchy_ok_of_mem s j c hcmem
      simp only [hcom, hok, ih, Except.toOption, Option.getD]

/-!
## C6 — similar-hierarchy search
-/

/-- C6: for every non-empty input hierarchy, `find_similar_hierarchies`
computes the joints matching the first element and those matching the last,
and for each start-matching joint intersects that joint's descendant set
with the end-matching joints; exactly for the start-matching joints with a
non-empty intersection it builds (without raising) the hierarchy from that
joint to one element of the intersection and prints it. -/
theorem find_similar_hierarchies_spec (s : Scene) (hierarchy : List String)
    (hne : hierarchy ≠ []) :
    find_similar_hierarchies s hierarchy = Except.ok
      ((matching_matrices s (hierarchy.head hne)).filterMap (fun j =>
        match (allDescendents s j).filter (fun n =>
            (matching_matrices s (hierarchy.getLast hne)).contains n) with
        | [] => none
        | c :: _ =>
          some (pretty_print_hierarchy ((get_hierarchy s j c).toOption.getD [])))) := by
  cases hierarchy with
  | nil => exact absurd rfl hne
  | cons x xs =>
    unfold find_similar_hierarchies
    exact fsh_loop_ok s (matching_matrices s ((x :: xs).getLast (List.cons_ne_nil x xs)))
      (matching_matrices s x)

/-- Witness for C6 on the two parallel chains of `demoPair`: the hierarchy
`A1 → A2` finds the parallel chain `B1 → B2` and prints it. -/
theorem find_similar_hierarchies_spec_witness :
    find_similar_hierarchies demoPair ["A1", "A2"] = Except.ok
      ((matching_matrices demoPair (["A1", "A2"].head (by decide))).filterMap (fun j =>
        match (allDescendents demoPair j).filter (fun n =>
            (matching_matrices demoPair
              (["A1", "A2"].getLast (by decide))).contains n) with
        | [] => none
        | c :: _ =>
          some (pretty_print_hierarchy
            ((get_hierarchy demoPair j c).toOption.getD [])))) ∧
    find_similar_hierarchies demoPair ["A1", "A2"] =
      Except.ok [["|  B1", "| - B2"]] :=
  ⟨find_similar_hierarchies_spec demoPair ["A1", "A2"] (by decide), by decide⟩
